/-
  Verification of the command-dispatch and scheduled-broadcast engine of the
  Telegram auto-messaging bot (bot.js and its allow-list variant).

  The JavaScript source is shallowly embedded: JS strings are Lean `String`s,
  JS numbers arising from `parseFloat` on decimal numerals are modelled exactly
  as rationals (the numerals matched by the interval regex are finite decimal
  literals), and the asynchronous send/delay/respond effects are reified as an
  event list.  JS `String.prototype.length` counts UTF-16 code units, which is
  modelled by `jsLen`.  JS whitespace (`\s`, `trim`) is modelled by the common
  ASCII whitespace characters, which covers every string the bot compares.
-/
import Mathlib

set_option maxRecDepth 8192

/-! ## JS string primitives -/

/-- The ASCII whitespace characters recognised by JS `\s` and `trim`. -/
def isWsChar (c : Char) : Bool :=
  c == ' ' || c == '\t' || c == '\n' || c == '\r' || c == '\x0b' || c == '\x0c'

/-- JS `\d`. -/
def isDigitChar (c : Char) : Bool :=
  '0' ≤ c && c ≤ '9'

/-- JS `String.prototype.trim`: strip whitespace from both ends. -/
def jsTrim (s : String) : String :=
  String.mk (((s.data.dropWhile isWsChar).reverse.dropWhile isWsChar).reverse)

/-- JS `String.prototype.length`: UTF-16 code units (astral code points count 2). -/
def jsLen (s : String) : Nat :=
  (s.data.map (fun c => if c.toNat < 65536 then 1 else 2)).sum

/-- Core of JS `split` on a single-character separator: every occurrence splits,
empty segments are kept, and the empty input yields one empty segment. -/
def splitCh (c : Char) : List Char → List (List Char)
  | [] => [[]]
  | x :: xs =>
    if x = c then [] :: splitCh c xs
    else
      match splitCh c xs with
      | r :: rs => (x :: r) :: rs
      | [] => [[x]]

/-- JS `text.split(sep)` for a one-character separator. -/
def jsSplitChar (c : Char) (s : String) : List String :=
  (splitCh c s.data).map String.mk

mutual

/-- Core of JS `split(/\s+/)`: split on maximal whitespace runs, keeping the
empty leading segment produced by leading whitespace and the empty trailing
segment produced by trailing whitespace (`splitWsSkip` consumes a run). -/
def splitWsCore : List Char → List Char → List String
  | [], acc => [String.mk acc.reverse]
  | x :: xs, acc =>
    if isWsChar x then String.mk acc.reverse :: splitWsSkip xs
    else splitWsCore xs (x :: acc)

def splitWsSkip : List Char → List String
  | [] => [""]
  | x :: xs => if isWsChar x then splitWsSkip xs else splitWsCore xs [x]

end

/-- JS `text.split(/\s+/)`. -/
def jsSplitWs (s : String) : List String :=
  splitWsCore s.data []

/-- Core of JS `String.prototype.replace` with a plain-string pattern: replace
the first occurrence of `pat`, or return the input unchanged when absent. -/
def replFirstCore (pat rep : List Char) : List Char → List Char
  | [] => []
  | x :: xs =>
    if pat.isPrefixOf (x :: xs) then rep ++ (x :: xs).drop pat.length
    else x :: replFirstCore pat rep xs

/-- JS `s.replace(pat, rep)` for a non-regex, non-empty pattern. -/
def jsReplaceFirst (s pat rep : String) : String :=
  String.mk (replFirstCore pat.data rep.data s.data)

/-- JS `s.startsWith(pre)`. -/
def jsStartsWith (s pre : String) : Bool :=
  pre.data.isPrefixOf s.data

/-- JS `s.toLowerCase()` on the characters the bot compares (ASCII). -/
def jsToLower (s : String) : String :=
  String.mk (s.data.map Char.toLower)

/-- JS `Array.prototype.join(sep)`. -/
def jsJoin (sep : String) : List String → String
  | [] => ""
  | [x] => x
  | x :: y :: rest => x ++ sep ++ jsJoin sep (y :: rest)

/-! ## Interval parser (`parseIntervalText`, bot.js lines 92-116) -/

/-- Match of the capture group `(\d*\.?\d+)`: greedy digits, an optional dot
that must be followed by at least one digit.  Returns the numeral and the rest
of the input.  Greedy matching agrees with the backtracking regex here because
a shorter numeral leaves a digit or a dot in front of `\s*[smhSMH]?$`, which
can never match. -/
def parseNum (cs : List Char) : Option (List Char × List Char) :=
  let d1 := cs.takeWhile isDigitChar
  let r1 := cs.dropWhile isDigitChar
  match r1 with
  | '.' :: r2 =>
    let d2 := r2.takeWhile isDigitChar
    let r3 := r2.dropWhile isDigitChar
    if d2 = [] then none else some (d1 ++ '.' :: d2, r3)
  | _ => if d1 = [] then none else some (d1, r1)

def unitChars : List Char := ['s', 'm', 'h', 'S', 'M', 'H']

/-- Full match of `/^(\d*\.?\d+)\s*([smhSMH]?)$/`: the numeral, optional
whitespace, an optional unit letter, end of input.  Yields the numeral and the
unit letter when one is present. -/
def matchInterval (cs : List Char) : Option (List Char × Option Char) :=
  match parseNum cs with
  | none => none
  | some (num, r) =>
    match r.dropWhile isWsChar with
    | [] => some (num, none)
    | [c] => if c ∈ unitChars then some (num, some c) else none
    | _ => none

/-- Value of a digit string. -/
def digitsToNat (ds : List Char) : Nat :=
  ds.foldl (fun n c => 10 * n + (c.toNat - 48)) 0

/-- Exact value of the decimal numeral matched by the regex.  This models
`parseFloat` on the numerals the regex accepts (finite decimal literals); the
float rounding of extremely long numerals is idealised away, which does not
change the sign or zero-ness of any value. -/
def decValue (num : List Char) : ℚ :=
  let intPart := num.takeWhile (fun c => c != '.')
  let rest := num.dropWhile (fun c => c != '.')
  match rest with
  | [] => (digitsToNat intPart : ℚ)
  | _ :: frac => (digitsToNat intPart : ℚ) + (digitsToNat frac : ℚ) / ((10 : ℚ) ^ frac.length)

/-- Smallest exponent `e` with `d ∣ 10 ^ e`, when one exists. -/
def decExp (d : Nat) : Option Nat :=
  (List.range (d + 1)).find? (fun e => 10 ^ e % d == 0)

/-- Digits of `n` with a decimal point placed `e` digits from the right. -/
def decDigits (n e : Nat) : String :=
  if e = 0 then toString n
  else
    let s := toString n
    let s2 := if s.length ≤ e then String.mk (List.replicate (e + 1 - s.length) '0') ++ s else s
    let ds := s2.data
    String.mk (ds.take (ds.length - e)) ++ "." ++ String.mk (ds.drop (ds.length - e))

/-- JS number-to-string on the exact decimal values produced by the interval
parser: integers print without a point, other values print as the shortest
decimal expansion (the denominator of a parsed decimal divides a power of ten). -/
def decimalRepr (q : ℚ) : String :=
  if q.den = 1 then toString q.num
  else
    match decExp q.den with
    | some e => (if q.num < 0 then "-" else "") ++ decDigits (q.num.natAbs * 10 ^ e / q.den) e
    | none => toString q.num ++ "/" ++ toString q.den

/-- The record returned by `parseIntervalText`
(`{ value, unit, intervalMs, label }`). -/
structure IntervalInfo where
  value : ℚ
  unit : Char
  intervalMs : ℚ
  label : String
deriving DecidableEq, Repr

/-- The unit conversion chain of the parser: `s` → 1000, `m` → 60000,
everything else (the defaulted hour) → 3600000. -/
def unitFactor (u : Char) : ℚ :=
  if u = 's' then 1000 else if u = 'm' then 60000 else 3600000

/-- `parseIntervalText` (bot.js lines 92-116).  The argument is `Option String`
to model the `(intervalText || "")` null-coalescing of the source.  The source
guard `!value || value <= 0` is `value ≤ 0` here, since a matched numeral is
never negative and `!value` only adds the `value = 0` case. -/
def parseIntervalText (intervalText : Option String) : Option IntervalInfo :=
  let trimmed := jsTrim (intervalText.getD "")
  match matchInterval trimmed.data with
  | none => none
  | some (num, u) =>
    let value := decValue num
    let unit := (u.getD 'h').toLower
    if value ≤ 0 then none
    else some ⟨value, unit, value * unitFactor unit, decimalRepr value ++ String.singleton unit⟩

/-! ## Jobs and observable events -/

/-- A recurring broadcast job as registered by `createAutoSendTimer`
(its captured group list, interval in milliseconds, and message). -/
structure Job where
  groups : List String
  intervalMs : ℚ
  message : String
deriving DecidableEq, Repr

/-- Observable effects of one inbound-message dispatch: a delivery attempt via
`sendMessageToGroup` (with its success flag), the pacing `sleep`, a reply sent
back to the caller, a timer registration, and the clearing of all timers. -/
inductive Ev where
  | send (target msg : String) (ok : Bool)
  | delaySend
  | respond (text : String)
  | timerStart (job : Job)
  | timersStop (n : Nat)
deriving DecidableEq, Repr

def isSendEv : Ev → Bool
  | .send _ _ _ => true
  | _ => false

def isDelayEv : Ev → Bool
  | .delaySend => true
  | _ => false

def evSendTarget : Ev → Option String
  | .send t _ _ => some t
  | _ => none

def evOutcome : Ev → Option (String × Bool)
  | .send t _ ok => some (t, ok)
  | _ => none

/-- `createAutoSendTimer` (bot.js lines 119-135): trims and drops empty group
entries, then registers a repeating timer for the job.  Only the registered job
is modelled here; its firing discipline is the scheduler semantics below. -/
def createAutoSendTimer (groups : List String) (intervalInfo : IntervalInfo)
    (message : String) : Job :=
  ⟨(groups.map jsTrim).filter (fun g => g ≠ ""), intervalInfo.intervalMs, message⟩

/-- The `/sendmulti` fan-out loop (bot.js lines 398-405): each entry is trimmed,
an entry that trims to empty is skipped (`continue`, which also skips that
iteration's delay), a send failure is recorded in the event and does not abort,
and the pacing delay runs after each processed non-final index. -/
def sendmultiLoop (sendOk : String → Bool) (msg : String) : List String → List Ev
  | [] => []
  | g :: rest =>
    let t := jsTrim g
    if t = "" then sendmultiLoop sendOk msg rest
    else Ev.send t msg (sendOk t) ::
      ((if rest = [] then [] else [Ev.delaySend]) ++ sendmultiLoop sendOk msg rest)

/-- The Broadcast Runner trace as the specification words it: every target is
attempted exactly once in list order, and the pacing delay is observed exactly
between consecutive sends, never after the last.  This definition follows the
spec, for comparison against `sendmultiLoop`. -/
def specBroadcastTrace (sendOk : String → Bool) (msg : String) : List String → List Ev
  | [] => []
  | [g] => [Ev.send g msg (sendOk g)]
  | g :: g2 :: rest =>
    Ev.send g msg (sendOk g) :: Ev.delaySend :: specBroadcastTrace sendOk msg (g2 :: rest)

/-- Target-list extraction of the `/sendmulti` handler (bot.js line 393): the
segment left of the first `|`, minus the first occurrence of the literal token
`/sendmulti`, trimmed, split on single spaces, and with empty pieces dropped. -/
def sendmultiTargets (cmdPart : String) : List String :=
  (jsSplitChar ' ' (jsTrim (jsReplaceFirst cmdPart "/sendmulti" ""))).filter (fun g => g ≠ "")

/-- `/sendmulti` parsing (bot.js lines 383-394): split the full text on every
`|`; the destructuring `[cmdPart, contentPart]` keeps only the first two
segments, and a missing or empty second segment is the missing-delimiter error
(`!contentPart`). -/
def sendmultiParse (text : String) : Option (List String × String) :=
  match jsSplitChar '|' text with
  | cmdPart :: contentPart :: _ =>
    if contentPart = "" then none
    else some (sendmultiTargets cmdPart, jsTrim contentPart)
  | _ => none

/-! ## The `/autosend` wizard (bot.js lines 88-89 and 137-195) -/

inductive WizStep where
  | stepGroups
  | stepInterval
  | stepMessage
deriving DecidableEq, Repr

/-- Per-caller wizard state (`autosendStates` values).  Fields that the JS
object acquires only later are `Option`s. -/
structure WizState where
  step : WizStep
  groups : Option (List String) := none
  intervalText : Option String := none
  intervalInfo : Option IntervalInfo := none
  done : Bool := false
deriving DecidableEq, Repr

/-- `processAutosendWizardInput` (bot.js lines 138-195).  Returns the updated
state (the source mutates it in place), the responses produced, and the job
registered on completion, if any. -/
def autosendWizardStep (state : WizState) (text : String) :
    WizState × List Ev × Option Job :=
  let trimmedText := jsTrim text
  match state.step with
  | .stepGroups =>
    let groups := ((jsSplitChar ' ' trimmedText).map jsTrim).filter (fun g => g ≠ "")
    if groups = [] then
      (state, [Ev.respond "❌ Please send at least one group username or ID (separated by spaces)."], none)
    else
      ({ state with groups := some groups, step := .stepInterval },
       [Ev.respond ("✅ Groups set: " ++ jsJoin ", " groups ++
          "\n\nStep 2: Send interval (e.g. 30s, 5m, 4h).")], none)
  | .stepInterval =>
    match parseIntervalText (some trimmedText) with
    | none =>
      (state, [Ev.respond "❌ Invalid interval. Use formats like 30s, 5m, 4h (number + unit)."], none)
    | some intervalInfo =>
      ({ state with intervalText := some trimmedText, intervalInfo := some intervalInfo,
                    step := .stepMessage },
       [Ev.respond ("✅ Interval set to every " ++ intervalInfo.label ++
          ".\n\nStep 3: Send the message text to auto-send.")], none)
  | .stepMessage =>
    if trimmedText = "" then
      (state, [Ev.respond "❌ Message cannot be empty. Please send the message text."], none)
    else
      let groups := state.groups.getD []
      let intervalInfo :=
        state.intervalInfo.orElse (fun _ => parseIntervalText (some (state.intervalText.getD "1h")))
      match intervalInfo, groups with
      | some info, g :: gs =>
        let job := createAutoSendTimer (g :: gs) info trimmedText
        ({ state with done := true },
         [Ev.timerStart job,
          Ev.respond ("✓ Auto-send started to " ++ toString (g :: gs).length ++
            " groups every " ++ info.label ++ ".")], some job)
      | _, _ =>
        ({ state with done := true },
         [Ev.respond "❌ Something went wrong with the wizard. Please send /autosend to start again."],
         none)

/-! The `autosendStates` map.  Only `get`, `set` and `delete` are used by the
source; the entry order of the model is immaterial. -/

def wizGet (m : List (String × WizState)) (k : String) : Option WizState :=
  (m.find? (fun p => p.1 == k)).map Prod.snd

def wizDel (m : List (String × WizState)) (k : String) : List (String × WizState) :=
  m.filter (fun p => p.1 != k)

def wizSet (m : List (String × WizState)) (k : String) (v : WizState) :
    List (String × WizState) :=
  (k, v) :: wizDel m k

/-! ## The bot.js command dispatcher (`setupMessageHandler`, lines 340-528) -/

/-- Collaborator data used by the dispatcher: the per-target delivery oracle
(`client.getEntity` + `client.sendMessage` succeed or throw) and the account
info behind `client.getMe`. -/
structure BotEnv where
  sendOk : String → Bool
  meFirstName : String
  meLastName : Option String
  meId : Int

/-- Mutable state the handler closes over: the `activeTimers` registry and the
`autosendStates` wizard table. -/
structure BotState where
  timers : List Job
  wizards : List (String × WizState)
deriving DecidableEq, Repr

def botHelpText : String :=
  "🤖 **Bot Commands:**\n\n/send @group message\nSend message to one group\n\n/sendmulti group1 group2 group3|Your message\nSend to multiple groups\n\n/autosend group1 group2|interval|Your message\nAuto-send to multiple groups every X (supports s, m, h; e.g. 30s, 5m, 4h)\n\n/help\nShow this help\n\n/stats\nShow your account info\n\n/stoptimers\nStop all auto-send timers"

def botStatsText (env : BotEnv) : String :=
  "📊 **Account Info:**\nName: " ++ env.meFirstName ++ " " ++ env.meLastName.getD "" ++
  "\nID: " ++ toString env.meId ++ "\nStatus: Online ✓"

def autosendWizardIntro : String :=
  "Step 1: Send the list of group usernames/IDs separated by spaces.\n\nExample:\n@group1 @group2 -1001234567890"

/-- The slash-command branch chain of the bot.js handler (lines 369-523).
`parts` and `command` are `text.split(" ")` and `parts[0].toLowerCase()`
(the slash is kept in `command` in this variant). -/
def botDispatch (env : BotEnv) (st : BotState) (senderKey : String)
    (parts : List String) (command text : String) : BotState × List Ev :=
  if command = "/send" ∧ 3 ≤ parts.length then
    let group := (parts.drop 1).headD ""
    let customMsg := jsJoin " " (parts.drop 2)
    (st, [Ev.send group customMsg (env.sendOk group),
          Ev.respond ("✓ Message sent to " ++ group)])
  else if command = "/sendmulti" then
    match sendmultiParse text with
    | none => (st, [Ev.respond "❌ Format: /sendmulti group1 group2|message"])
    | some (groups, message) =>
      (st, sendmultiLoop env.sendOk message groups ++
           [Ev.respond ("✓ Sent to " ++ toString groups.length ++ " groups!")])
  else if command = "/autosend" then
    let partsPipe := jsSplitChar '|' text
    if partsPipe.length = 1 then
      ({ st with wizards := wizSet st.wizards senderKey ⟨.stepGroups, none, none, none, false⟩ },
       [Ev.respond autosendWizardIntro])
    else if partsPipe.length < 3 then
      (st, [Ev.respond "❌ Format: /autosend group1 group2|interval|message (interval like 30s, 5m, 4h)"])
    else
      let cmdPart := partsPipe.headD ""
      let intervalPart := (partsPipe.drop 1).headD ""
      let messagePart := jsJoin "|" (partsPipe.drop 2)
      let groups := (jsSplitChar ' ' (jsTrim (jsReplaceFirst cmdPart "/autosend" ""))).filter
        (fun g => g ≠ "")
      let intervalInfo := parseIntervalText (some (jsTrim intervalPart))
      match intervalInfo with
      | none =>
        (st, [Ev.respond "❌ Invalid format. Use: /autosend group1 group2|interval|message (interval like 30s, 5m, 4h)"])
      | some info =>
        if groups = [] ∨ jsTrim messagePart = "" then
          (st, [Ev.respond "❌ Invalid format. Use: /autosend group1 group2|interval|message (interval like 30s, 5m, 4h)"])
        else
          let job := createAutoSendTimer groups info (jsTrim messagePart)
          ({ st with timers := st.timers ++ [job] },
           [Ev.timerStart job,
            Ev.respond ("✓ Auto-send started to " ++ toString groups.length ++
              " groups every " ++ info.label ++ ".")])
  else if command = "/help" then
    (st, [Ev.respond botHelpText])
  else if command = "/stats" then
    (st, [Ev.respond (botStatsText env)])
  else if command = "/stoptimers" then
    ({ st with timers := [] },
     [Ev.timersStop st.timers.length, Ev.respond "✓ All auto-send timers stopped."])
  else
    (st, [Ev.respond "❓ Unknown command. Type /help"])

/-- One inbound message through the bot.js handler: wizard routing for a caller
with an active wizard entry and a non-slash text (the entry is deleted exactly
when the step marks `done`), silence for other non-slash texts, and the command
branch chain for slash texts. -/
def botHandle (env : BotEnv) (st : BotState) (senderKey text : String) :
    BotState × List Ev :=
  let parts := jsSplitChar ' ' text
  let command := jsToLower (parts.headD "")
  match wizGet st.wizards senderKey with
  | some w =>
    if jsStartsWith text "/" then botDispatch env st senderKey parts command text
    else
      let r := autosendWizardStep w text
      (⟨st.timers ++ r.2.2.toList,
        if r.1.done then wizDel st.wizards senderKey else wizSet st.wizards senderKey r.1⟩,
       r.2.1)
  | none =>
    if jsStartsWith text "/" then botDispatch env st senderKey parts command text
    else (st, [])

/-! ## The allow-list dispatcher variant (src/unnamed/part_000, lines 221-564) -/

/-- The static allow-list of caller identities (part_000 line 85). -/
def allowedUserIds : List Int := [7968867231, 1016048363]

/-- The fixed promotional redirect sent to unauthorized callers
(part_000 lines 248-250). -/
def promoRedirect : String :=
  "👋 **Hello! Want to plug a service?**\n\nIt is available right now!\n\n👉 Click here to send me a direct message: https://t.me/lithuazs"

/-- A dialog entity as inspected by the `/has` handler.  Absent `title` and
`username` are the empty string, matching JS falsiness of `undefined` and `""`. -/
structure DialogEntity where
  isGroupOrChannel : Bool
  title : String
  username : String
  id : Int
deriving DecidableEq, Repr

/-- Collaborator data for the part_000 dispatcher. -/
structure P0Env where
  sendOk : String → Bool
  dialogs : List DialogEntity
  meFirstName : String
  meLastName : Option String
  meId : Int

/-- `entity.title || entity.username || `Unknown (${entity.id})`` -/
def dlgTitle (e : DialogEntity) : String :=
  if e.title ≠ "" then e.title
  else if e.username ≠ "" then e.username
  else "Unknown (" ++ toString e.id ++ ")"

/-- `entity.username ? `@${entity.username}` : `ID: ${entity.id}`` -/
def dlgUser (e : DialogEntity) : String :=
  if e.username ≠ "" then "@" ++ e.username else "ID: " ++ toString e.id

/-- The `(title, username)` pairs collected from the dialog list. -/
def hasGroupsOf (dialogs : List DialogEntity) : List (String × String) :=
  (dialogs.filter (fun e => e.isGroupOrChannel)).map (fun e => (dlgTitle e, dlgUser e))

def hasHeader (n : Nat) : String :=
  "📋 **Your Groups & Channels** (" ++ toString n ++ "):\n\n"

/-- One listing line: `${idx + 1}. ${group.title}\n   ${group.username}\n`. -/
def hasLine (idx : Nat) (p : String × String) : String :=
  toString (idx + 1) ++ ". " ++ p.1 ++ "\n   " ++ p.2 ++ "\n"

def hasLinesOf (gs : List (String × String)) : List String :=
  gs.mapIdx hasLine

/-- `groupsList` accumulated from the header by `+=` (part_000 lines 495-498). -/
def hasListing (gs : List (String × String)) : String :=
  (hasLinesOf gs).foldl (fun acc line => acc ++ line) (hasHeader gs.length)

/-- One step of the chunk accumulator (part_000 lines 505-513): a line that
would push the current chunk past 4000 UTF-16 units closes that chunk and
starts a fresh one with the line alone; otherwise the line is appended. -/
def chunkAccum (acc : List String × String) (line : String) : List String × String :=
  if 4000 < jsLen (acc.2 ++ line) then (acc.1 ++ [acc.2], line) else (acc.1, acc.2 ++ line)

/-- The chunk list built from a starting chunk and the item lines, with the
final non-empty chunk pushed (part_000 lines 502-514). -/
def buildChunks (header : String) (lines : List String) : List String :=
  let r := lines.foldl chunkAccum ([], header)
  if r.2 ≠ "" then r.1 ++ [r.2] else r.1

/-- The same accumulation carried out on unconcatenated line groups, to state
that every chunk is a concatenation of consecutive whole items. -/
def chunkSegAccum (acc : List (List String) × List String) (line : String) :
    List (List String) × List String :=
  if 4000 < jsLen (String.join acc.2 ++ line) then (acc.1 ++ [acc.2], [line])
  else (acc.1, acc.2 ++ [line])

def buildSegs (header : String) (lines : List String) : List (List String) :=
  let r := lines.foldl chunkSegAccum ([], [header])
  if String.join r.2 ≠ "" then r.1 ++ [r.2] else r.1

/-- The `/has` chunk list for a group listing. -/
def hasChunks (gs : List (String × String)) : List String :=
  buildChunks (hasHeader gs.length) (hasLinesOf gs)

/-- The `/has` handler body after the dialog fetch (part_000 lines 463-547). -/
def p0HasEvents (dialogs : List DialogEntity) : List Ev :=
  let gs := hasGroupsOf dialogs
  Ev.respond "⏳ Fetching groups..." ::
    (if gs = [] then [Ev.respond "📭 No groups or channels found."]
     else
       let groupsList := hasListing gs
       if 4096 < jsLen groupsList then (hasChunks gs).map Ev.respond
       else [Ev.respond groupsList])

/-- `command.replace(/^\//, "")`: strip one leading slash. -/
def stripLeadSlash (s : String) : String :=
  if jsStartsWith s "/" then String.mk (s.data.drop 1) else s

/-- Target extraction of the part_000 multi-target commands:
`cmdPart.replace(/^\/*\s*<cmd>\s+/, "")`, where the regex strips leading
slashes, optional whitespace, the literal command word, and at least one
whitespace character; a failed match leaves the input unchanged. -/
def p0StripCmd (cmd : String) (s : String) : String :=
  let cs1 := (s.data.dropWhile (fun c => c == '/')).dropWhile isWsChar
  if cmd.data.isPrefixOf cs1 then
    match cs1.drop cmd.length with
    | c :: rest => if isWsChar c then String.mk (rest.dropWhile isWsChar) else s
    | [] => s
  else s

def p0HelpText : String :=
  "🤖 **Bot Commands Menu:**\n\nClick a command below to copy it to your chat bar:\n\n📤 `/send` - Send to one group\n📤 `/sendmulti` - Send to multiple groups\n⏰ `/autosend` - Start interval sending\n📋 `/has` - List all your groups\n📊 `/stats` - View account status\n⛔ `/stoptimers` - Stop all auto-sends\n\nℹ️ Use `|` to separate parts for multi/autosend.\n✉️ [Contact Admin](https://t.me/lithuazs)"

def p0StatsText (env : P0Env) (timerCount : Nat) : String :=
  "📊 **Account Info:**\nName: " ++ env.meFirstName ++ " " ++ env.meLastName.getD "" ++
  "\nID: `" ++ toString env.meId ++ "`\nActive Timers: " ++ toString timerCount ++
  "\nStatus: Online ✓"

/-- The authorized branch chain of the part_000 handler (lines 257-558).
`command` has its leading slash stripped in this variant. -/
def p0Dispatch (env : P0Env) (timers : List Job) (parts : List String)
    (command text : String) : List Job × List Ev :=
  if command = "send" ∧ 3 ≤ parts.length then
    let group := (parts.drop 1).headD ""
    let customMsg := jsJoin " " (parts.drop 2)
    (timers, [Ev.send group customMsg (env.sendOk group),
              Ev.respond ("✓ Message sent to " ++ group)])
  else if command = "sendmulti" then
    match jsSplitChar '|' text with
    | cmdPart :: contentPart :: _ =>
      if contentPart = "" then
        (timers, [Ev.respond "❌ Format: /sendmulti group1 group2|message"])
      else
        let groups := (jsSplitWs (jsTrim (p0StripCmd "sendmulti" cmdPart))).filter
          (fun g => g ≠ "")
        let message := jsTrim contentPart
        (timers, sendmultiLoop env.sendOk message groups ++
                 [Ev.respond ("✓ Sent to " ++ toString groups.length ++ " groups!")])
    | _ => (timers, [Ev.respond "❌ Format: /sendmulti group1 group2|message"])
  else if command = "autosend" then
    let partsPipe := jsSplitChar '|' text
    if partsPipe.length < 3 then
      (timers, [Ev.respond "❌ Format: /autosend group1 group2|interval|message (interval like 30s, 5m, 4h)"])
    else
      let cmdPart := partsPipe.headD ""
      let intervalPart := (partsPipe.drop 1).headD ""
      let messagePart := jsJoin "|" (partsPipe.drop 2)
      let groups := (jsSplitWs (jsTrim (p0StripCmd "autosend" cmdPart))).filter
        (fun g => g ≠ "")
      let intervalText := jsTrim intervalPart
      match matchInterval intervalText.data with
      | none => (timers, [Ev.respond "❌ Invalid interval. Use number + unit: 30s, 5m, 4h"])
      | some (num, u) =>
        let value := decValue num
        let unit := (u.getD 'h').toLower
        let intervalMs := value * unitFactor unit
        if groups = [] ∨ value ≤ 0 ∨ jsTrim messagePart = "" then
          (timers, [Ev.respond "❌ Invalid format. Make sure you provided groups and a message."])
        else
          let job : Job := ⟨groups, intervalMs, jsTrim messagePart⟩
          (timers ++ [job],
           [Ev.timerStart job,
            Ev.respond ("✓ Auto-send started to " ++ toString groups.length ++
              " groups every " ++ intervalText ++ ".")])
  else if command = "help" then
    (timers, [Ev.respond p0HelpText])
  else if command = "stats" then
    (timers, [Ev.respond (p0StatsText env timers.length)])
  else if command = "stoptimers" then
    ([], [Ev.timersStop timers.length, Ev.respond "✓ All auto-send timers stopped."])
  else if command = "has" then
    (timers, p0HasEvents env.dialogs)
  else
    (timers, [Ev.respond "❓ Unknown command. Type /help to see the menu."])

/-- One inbound message through the part_000 handler (lines 224-563): non-slash
texts are ignored before anything else, the empty command is ignored, and an
unauthorized caller receives the fixed promotional redirect with no further
dispatch. -/
def p0Handle (env : P0Env) (timers : List Job) (senderId : Int) (text : String) :
    List Job × List Ev :=
  if jsStartsWith text "/" then
    let parts := jsSplitChar ' ' text
    let command := stripLeadSlash (jsToLower (parts.headD ""))
    if command = "" then (timers, [])
    else if senderId ∈ allowedUserIds then p0Dispatch env timers parts command text
    else (timers, [Ev.respond promoRedirect])
  else (timers, [])

/-! ## Timer semantics

`setInterval(f, ms)` registers a repeating timer that first fires one full
interval after registration and then every interval thereafter;
`/stoptimers` runs `clearInterval` on every registered timer and empties the
`activeTimers` array (bot.js lines 123-135 and 508-517).  Time is advanced
explicitly; a broadcast event stands for one tick invoking the fan-out loop. -/

structure TimerEntry where
  job : Job
  nextFire : ℚ
deriving DecidableEq, Repr

structure SchedState where
  now : ℚ
  timers : List TimerEntry
deriving DecidableEq, Repr

inductive SchedEv where
  | tickBroadcast (j : Job)
  | timersCleared (n : Nat)
deriving DecidableEq, Repr

def isTickEv : SchedEv → Bool
  | .tickBroadcast _ => true
  | _ => false

/-- Number of ticks a timer delivers while time reaches `now`. -/
def fireCount (now : ℚ) (e : TimerEntry) : Nat :=
  if e.job.intervalMs ≤ 0 then 0
  else if e.nextFire ≤ now then (⌊(now - e.nextFire) / e.job.intervalMs⌋).toNat + 1
  else 0

/-- Deliver all due ticks of one timer and reschedule it. -/
def advanceTimer (now : ℚ) (e : TimerEntry) : List SchedEv × TimerEntry :=
  let k := fireCount now e
  (List.replicate k (SchedEv.tickBroadcast e.job),
   ⟨e.job, e.nextFire + (k : ℚ) * e.job.intervalMs⟩)

inductive SchedOp where
  | create (groups : List String) (intervalInfo : IntervalInfo) (message : String)
  | stopTimers
  | advance (δ : ℚ)

/-- One scheduler operation: `create` registers the `createAutoSendTimer` job
(first due one full interval later, no events at creation), `stopTimers`
clears the registry, `advance` lets time pass and delivers due ticks. -/
def schedStep (s : SchedState) : SchedOp → SchedState × List SchedEv
  | .create groups intervalInfo message =>
    (⟨s.now, s.timers ++
       [⟨createAutoSendTimer groups intervalInfo message, s.now + intervalInfo.intervalMs⟩]⟩,
     [])
  | .stopTimers => (⟨s.now, []⟩, [SchedEv.timersCleared s.timers.length])
  | .advance δ =>
    let now := s.now + δ
    let rs := s.timers.map (advanceTimer now)
    (⟨now, rs.map Prod.snd⟩, (rs.map Prod.fst).flatten)

def schedRun (s : SchedState) (ops : List SchedOp) : SchedState × List SchedEv :=
  ops.foldl (fun acc op =>
    ((schedStep acc.1 op).1, acc.2 ++ (schedStep acc.1 op).2)) (s, [])

/-! ## Shared lemmas -/

theorem unitFactor_s : unitFactor 's' = 1000 := by
  unfold unitFactor
  rw [if_pos rfl]

theorem unitFactor_m : unitFactor 'm' = 60000 := by
  unfold unitFactor
  rw [if_neg (by decide), if_pos rfl]

theorem unitFactor_h : unitFactor 'h' = 3600000 := by
  unfold unitFactor
  rw [if_neg (by decide), if_neg (by decide)]

theorem unitFactor_pos (c : Char) : 0 < unitFactor c := by
  unfold unitFactor
  split_ifs <;> norm_num

/-- How `parseIntervalText` evaluates once the regex match and the sign of the
value are known. -/
theorem parseIntervalText_of_match (s : String) (num : List Char) (u : Option Char)
    (hm : matchInterval (jsTrim s).data = some (num, u)) (hv : ¬ decValue num ≤ 0) :
    parseIntervalText (some s) =
      some ⟨decValue num, (u.getD 'h').toLower,
            decValue num * unitFactor (u.getD 'h').toLower,
            decimalRepr (decValue num) ++ String.singleton (u.getD 'h').toLower⟩ := by
  simp only [parseIntervalText, Option.getD]
  rw [hm]
  simp only
  rw [if_neg hv]

theorem parse_30s_eq : parseIntervalText (some "30s") = some ⟨30, 's', 30000, "30s"⟩ := by
  have h : parseIntervalText (some "30s") =
      some ⟨((30:ℕ):ℚ), 's', ((30:ℕ):ℚ) * unitFactor 's',
            decimalRepr ((30:ℕ):ℚ) ++ String.singleton 's'⟩ := rfl
  rw [h]
  norm_num [Option.some.injEq, IntervalInfo.mk.injEq, unitFactor_s]
  decide

theorem parse_5m_eq : parseIntervalText (some "5m") = some ⟨5, 'm', 300000, "5m"⟩ := by
  have h : parseIntervalText (some "5m") =
      some ⟨((5:ℕ):ℚ), 'm', ((5:ℕ):ℚ) * unitFactor 'm',
            decimalRepr ((5:ℕ):ℚ) ++ String.singleton 'm'⟩ := rfl
  rw [h]
  norm_num [Option.some.injEq, IntervalInfo.mk.injEq, unitFactor_m]
  decide

theorem parse_4h_eq : parseIntervalText (some "4h") = some ⟨4, 'h', 14400000, "4h"⟩ := by
  have h : parseIntervalText (some "4h") =
      some ⟨((4:ℕ):ℚ), 'h', ((4:ℕ):ℚ) * unitFactor 'h',
            decimalRepr ((4:ℕ):ℚ) ++ String.singleton 'h'⟩ := rfl
  rw [h]
  norm_num [Option.some.injEq, IntervalInfo.mk.injEq, unitFactor_h]
  decide

theorem parse_bare2_eq : parseIntervalText (some "2") = some ⟨2, 'h', 7200000, "2h"⟩ := by
  have h : parseIntervalText (some "2") =
      some ⟨((2:ℕ):ℚ), 'h', ((2:ℕ):ℚ) * unitFactor 'h',
            decimalRepr ((2:ℕ):ℚ) ++ String.singleton 'h'⟩ := rfl
  rw [h]
  norm_num [Option.some.injEq, IntervalInfo.mk.injEq, unitFactor_h]
  decide

/-! ## Claim theorems: interval parser -/

/-- Claim C4: for every interval string matching the numeric+optional-unit
shape with a positive value, the parser returns milliseconds equal to
value×1000 for unit `s`, value×60000 for `m`, value×3600000 for `h`, and an
omitted unit behaves as hour; in particular "30s" → 30000 ms, "5m" → 300000 ms,
"4h" → 14400000 ms and "2" → 7200000 ms. -/
theorem claim_c4_interval_conversion :
    (∀ s info, parseIntervalText (some s) = some info →
      (info.unit = 's' → info.intervalMs = info.value * 1000) ∧
      (info.unit = 'm' → info.intervalMs = info.value * 60000) ∧
      (info.unit = 'h' → info.intervalMs = info.value * 3600000)) ∧
    (∀ s num, matchInterval (jsTrim s).data = some (num, none) → 0 < decValue num →
      parseIntervalText (some s) =
        some ⟨decValue num, 'h', decValue num * 3600000, decimalRepr (decValue num) ++ "h"⟩) ∧
    parseIntervalText (some "30s") = some ⟨30, 's', 30000, "30s"⟩ ∧
    parseIntervalText (some "5m") = some ⟨5, 'm', 300000, "5m"⟩ ∧
    parseIntervalText (some "4h") = some ⟨4, 'h', 14400000, "4h"⟩ ∧
    parseIntervalText (some "2") = some ⟨2, 'h', 7200000, "2h"⟩ := by
  refine ⟨?_, ?_, ?_, ?_, ?_, ?_⟩
  · intro s info h
    simp only [parseIntervalText, Option.getD] at h
    cases hm : matchInterval (jsTrim s).data with
    | none => rw [hm] at h; exact absurd h (by simp)
    | some r =>
      obtain ⟨num, u⟩ := r
      rw [hm] at h
      simp only at h
      split at h
      next hle => exact absurd h (by simp)
      next hle =>
        simp only [Option.some.injEq] at h
        subst h
        refine ⟨fun hu => ?_, fun hu => ?_, fun hu => ?_⟩ <;> dsimp only at hu ⊢ <;> rw [hu]
        · rw [unitFactor_s]
        · rw [unitFactor_m]
        · rw [unitFactor_h]
  · intro s num hm hpos
    exact parseIntervalText_of_match s num none hm (not_le.mpr hpos)
  · exact parse_30s_eq
  · exact parse_5m_eq
  · exact parse_4h_eq
  · exact parse_bare2_eq

/-- Claim C4 witness at the concrete input "30s". -/
theorem claim_c4_interval_conversion_witness :
    parseIntervalText (some "30s") = some ⟨30, 's', 30000, "30s"⟩ ∧
    ((⟨30, 's', 30000, "30s"⟩ : IntervalInfo).intervalMs =
      (⟨30, 's', 30000, "30s"⟩ : IntervalInfo).value * 1000) :=
  ⟨claim_c4_interval_conversion.2.2.1,
   (claim_c4_interval_conversion.1 "30s" ⟨30, 's', 30000, "30s"⟩
      claim_c4_interval_conversion.2.2.1).1 rfl⟩

/-- Claim C7: every interval string that does not match the numeric+optional-
unit shape, or whose numeric value is zero, or negative (e.g. "abc", "-5m",
"0h"), makes the parser fail with the malformed-interval result (`null`). -/
theorem claim_c7_interval_rejects :
    parseIntervalText (some "abc") = none ∧
    parseIntervalText (some "-5m") = none ∧
    parseIntervalText (some "0h") = none ∧
    (∀ s, matchInterval (jsTrim s).data = none → parseIntervalText (some s) = none) ∧
    (∀ s num u, matchInterval (jsTrim s).data = some (num, u) → decValue num = 0 →
      parseIntervalText (some s) = none) := by
  refine ⟨by decide, by decide, by decide, ?_, ?_⟩
  · intro s hm
    simp only [parseIntervalText, Option.getD]
    rw [hm]
  · intro s num u hm h0
    simp only [parseIntervalText, Option.getD]
    rw [hm]
    simp [h0]

/-- Claim C7 witness at the concrete inputs "xyz" (shape mismatch) and
"0s" (zero value). -/
theorem claim_c7_interval_rejects_witness :
    parseIntervalText (some "xyz") = none ∧ parseIntervalText (some "0s") = none :=
  ⟨claim_c7_interval_rejects.2.2.2.1 "xyz" (by decide),
   claim_c7_interval_rejects.2.2.2.2 "0s" ['0'] (some 's') (by decide) (by decide)⟩

/-- Claim C9: the interval parser is total — it is a total function of an
optional string (absent input is coalesced to ""), and it returns either
`none` or a record whose `intervalMs` (and `value`) is strictly positive. -/
theorem claim_c9_interval_positive :
    parseIntervalText none = none ∧
    parseIntervalText (some "") = none ∧
    (∀ o info, parseIntervalText o = some info → 0 < info.intervalMs ∧ 0 < info.value) := by
  refine ⟨by decide, by decide, ?_⟩
  intro o info h
  simp only [parseIntervalText] at h
  cases hm : matchInterval (jsTrim (o.getD "")).data with
  | none => rw [hm] at h; exact absurd h (by simp)
  | some r =>
    obtain ⟨num, u⟩ := r
    rw [hm] at h
    simp only at h
    split at h
    next hle => exact absurd h (by simp)
    next hle =>
      simp only [Option.some.injEq] at h
      subst h
      have hv : 0 < decValue num := lt_of_not_le hle
      exact ⟨mul_pos hv (unitFactor_pos _), hv⟩

/-- Claim C9 witness at the concrete input "5m". -/
theorem claim_c9_interval_positive_witness :
    (0 : ℚ) < (⟨5, 'm', 300000, "5m"⟩ : IntervalInfo).intervalMs ∧
    (0 : ℚ) < (⟨5, 'm', 300000, "5m"⟩ : IntervalInfo).value :=
  claim_c9_interval_positive.2.2 (some "5m") ⟨5, 'm', 300000, "5m"⟩ parse_5m_eq

/-! ## Claim theorems: authorization gate -/

/-- Claim C1: an inbound message from a caller not on the allow-list never
reaches any target-affecting handler — the timer registry is unchanged and the
Broadcast Runner is never invoked (no send to any target occurs, whatever the
text, including a well-formed `/send`) — and the only response ever produced is
the fixed promotional redirect (a non-slash text or an empty command is ignored
without any response at all). -/
theorem claim_c1_unauthorized_only_redirect (env : P0Env) (timers : List Job)
    (senderId : Int) (text : String) (h : senderId ∉ allowedUserIds) :
    (p0Handle env timers senderId text).1 = timers ∧
    ∀ e ∈ (p0Handle env timers senderId text).2, e = Ev.respond promoRedirect := by
  simp only [p0Handle]
  split_ifs with h1 h2
  · exact ⟨rfl, by simp⟩
  · exact ⟨rfl, by simp⟩
  · exact ⟨rfl, by simp⟩

/-- Claim C1 witness: the unauthorized caller 42 sending a well-formed `/send`
command triggers no send and gets only the promotional redirect. -/
theorem claim_c1_unauthorized_only_redirect_witness :
    ((42 : Int) ∉ allowedUserIds) ∧
    (p0Handle ⟨fun _ => true, [], "A", none, 1⟩ [] 42 "/send @g hello").1 = [] ∧
    (∀ e ∈ (p0Handle ⟨fun _ => true, [], "A", none, 1⟩ [] 42 "/send @g hello").2,
      e = Ev.respond promoRedirect) :=
  ⟨by decide,
   (claim_c1_unauthorized_only_redirect ⟨fun _ => true, [], "A", none, 1⟩ [] 42
      "/send @g hello" (by decide)).1,
   (claim_c1_unauthorized_only_redirect ⟨fun _ => true, [], "A", none, 1⟩ [] 42
      "/send @g hello" (by decide)).2⟩

/-! ## Claim theorems: broadcast runner -/

theorem sendmultiLoop_eq_spec (ok : String → Bool) (msg : String) :
    ∀ gs : List String, (∀ g ∈ gs, jsTrim g = g ∧ g ≠ "") →
    sendmultiLoop ok msg gs = specBroadcastTrace ok msg gs := by
  intro gs
  induction gs with
  | nil => intro _; rfl
  | cons g rest ih =>
    intro hg
    obtain ⟨hgt, hgne⟩ := hg g (by simp)
    have hrest : ∀ x ∈ rest, jsTrim x = x ∧ x ≠ "" := fun x hx => hg x (by simp [hx])
    cases rest with
    | nil => simp [sendmultiLoop, specBroadcastTrace, hgt, hgne]
    | cons g2 rs =>
      have h1 : sendmultiLoop ok msg (g :: g2 :: rs) =
          if jsTrim g = "" then sendmultiLoop ok msg (g2 :: rs)
          else Ev.send (jsTrim g) msg (ok (jsTrim g)) ::
            ((if (g2 :: rs) = ([] : List String) then [] else [Ev.delaySend]) ++
              sendmultiLoop ok msg (g2 :: rs)) := rfl
      rw [h1, hgt, if_neg hgne, if_neg (List.cons_ne_nil g2 rs), ih hrest]
      rfl

theorem spec_trace_targets (ok : String → Bool) (msg : String) :
    ∀ gs : List String, (specBroadcastTrace ok msg gs).filterMap evSendTarget = gs := by
  intro gs
  induction gs with
  | nil => rfl
  | cons g rest ih =>
    cases rest with
    | nil => rfl
    | cons g2 rs =>
      show (Ev.send g msg (ok g) :: Ev.delaySend ::
        specBroadcastTrace ok msg (g2 :: rs)).filterMap evSendTarget = _
      simp [List.filterMap_cons, evSendTarget, ih]

theorem spec_trace_outcomes (ok : String → Bool) (msg : String) :
    ∀ gs : List String,
      (specBroadcastTrace ok msg gs).filterMap evOutcome = gs.map (fun g => (g, ok g)) := by
  intro gs
  induction gs with
  | nil => rfl
  | cons g rest ih =>
    cases rest with
    | nil => rfl
    | cons g2 rs =>
      show (Ev.send g msg (ok g) :: Ev.delaySend ::
        specBroadcastTrace ok msg (g2 :: rs)).filterMap evOutcome = _
      simp [List.filterMap_cons, evOutcome, ih]

theorem spec_trace_delays (ok : String → Bool) (msg : String) :
    ∀ gs : List String, (specBroadcastTrace ok msg gs).countP isDelayEv = gs.length - 1 := by
  intro gs
  induction gs with
  | nil => rfl
  | cons g rest ih =>
    cases rest with
    | nil => rfl
    | cons g2 rs =>
      show (Ev.send g msg (ok g) :: Ev.delaySend ::
        specBroadcastTrace ok msg (g2 :: rs)).countP isDelayEv = _
      simp [List.countP_cons, isDelayEv, ih]

/-- Claim C2 (amended): for a target list whose entries are trimmed and
non-empty — a restriction the claim's universal form lacks — the `/sendmulti`
fan-out loop attempts each target exactly once in list order with the
per-target failure recorded and no abort, and the pacing delay is observed
exactly n-1 times, between consecutive sends only, never after the last:
the trace equals the spec-side broadcast trace. -/
theorem claim_c2_broadcast_runner_amended (ok : String → Bool) (msg : String)
    (gs : List String) (hg : ∀ g ∈ gs, jsTrim g = g ∧ g ≠ "") :
    sendmultiLoop ok msg gs = specBroadcastTrace ok msg gs ∧
    (sendmultiLoop ok msg gs).filterMap evSendTarget = gs ∧
    (sendmultiLoop ok msg gs).filterMap evOutcome = gs.map (fun g => (g, ok g)) ∧
    (sendmultiLoop ok msg gs).countP isDelayEv = gs.length - 1 := by
  have he := sendmultiLoop_eq_spec ok msg gs hg
  refine ⟨he, ?_, ?_, ?_⟩ <;> rw [he]
  · exact spec_trace_targets ok msg gs
  · exact spec_trace_outcomes ok msg gs
  · exact spec_trace_delays ok msg gs

/-- Claim C2 counterexample: the target list ["x", "\t", "y"] is reachable from
the dispatcher (it is exactly what `/sendmulti x \t y|m` parses to), yet the
whitespace-only target "\t" is never attempted (`continue`), so only two of the
three targets are attempted and the delay runs once instead of n-1 = 2 times. -/
theorem claim_c2_broadcast_runner_counterexample :
    sendmultiParse "/sendmulti x \t y|m" = some (["x", "\t", "y"], "m") ∧
    sendmultiLoop (fun _ => true) "m" ["x", "\t", "y"] =
      [Ev.send "x" "m" true, Ev.delaySend, Ev.send "y" "m" true] ∧
    (sendmultiLoop (fun _ => true) "m" ["x", "\t", "y"]).filterMap evSendTarget = ["x", "y"] ∧
    (["x", "y"] : List String) ≠ ["x", "\t", "y"] ∧
    (sendmultiLoop (fun _ => true) "m" ["x", "\t", "y"]).countP isDelayEv = 1 ∧
    (1 : Nat) ≠ 3 - 1 := by
  decide

/-- Claim C2 witness: three well-formed targets with the middle send failing
give Delivered, Failed, Delivered in order with exactly two delays. -/
theorem claim_c2_broadcast_runner_amended_witness :
    (∀ g ∈ (["@a", "@b", "@c"] : List String), jsTrim g = g ∧ g ≠ "") ∧
    (sendmultiLoop (fun g => g != "@b") "Hi" ["@a", "@b", "@c"]).filterMap evOutcome =
      [("@a", true), ("@b", false), ("@c", true)] ∧
    (sendmultiLoop (fun g => g != "@b") "Hi" ["@a", "@b", "@c"]).countP isDelayEv = 2 :=
  ⟨by decide,
   ((claim_c2_broadcast_runner_amended (fun g => g != "@b") "Hi" ["@a", "@b", "@c"]
       (by decide)).2.2.1).trans (by decide),
   ((claim_c2_broadcast_runner_amended (fun g => g != "@b") "Hi" ["@a", "@b", "@c"]
       (by decide)).2.2.2).trans (by decide)⟩

/-! ## Claim theorems: command parsing -/

/-- Claim C5 (amended): `/sendmulti` text is split on every `|`; when there is
no `|`, or the segment between the first and the second `|` is empty, parsing
fails with the missing-delimiter error and the dispatcher attempts no send;
otherwise the parsed message is exactly the segment between the first and the
second `|` (trimmed) — text after a second `|` is discarded, not part of the
message — and the targets are the left side minus the first occurrence of the
literal token `/sendmulti`, trimmed, split on single spaces, filtered of
empties. -/
theorem claim_c5_sendmulti_parse_amended :
    (∀ text, (jsSplitChar '|' text).length = 1 → sendmultiParse text = none) ∧
    (∀ text cmdPart contentPart rest,
      jsSplitChar '|' text = cmdPart :: contentPart :: rest → contentPart ≠ "" →
      sendmultiParse text = some (sendmultiTargets cmdPart, jsTrim contentPart)) ∧
    (∀ text cmdPart rest, jsSplitChar '|' text = cmdPart :: "" :: rest →
      sendmultiParse text = none) ∧
    (∀ env st k text,
      jsStartsWith text "/" = true →
      jsToLower ((jsSplitChar ' ' text).headD "") = "/sendmulti" →
      sendmultiParse text = none →
      botHandle env st k text =
        (st, [Ev.respond "❌ Format: /sendmulti group1 group2|message"])) := by
  refine ⟨?_, ?_, ?_, ?_⟩
  · intro text hlen
    unfold sendmultiParse
    cases hs : jsSplitChar '|' text with
    | nil => rfl
    | cons c rest =>
      cases rest with
      | nil => rfl
      | cons p rs => rw [hs] at hlen; simp at hlen
  · intro text cmdPart contentPart rest hs hne
    unfold sendmultiParse
    rw [hs]
    simp [hne]
  · intro text cmdPart rest hs
    unfold sendmultiParse
    rw [hs]
    simp
  · intro env st k text hslash hcmd hparse
    unfold botHandle
    cases hw : wizGet st.wizards k <;>
      · simp only
        rw [if_pos hslash]
        unfold botDispatch
        rw [hcmd]
        rw [if_neg (fun hc => absurd hc.1 (by decide)), if_pos rfl, hparse]

/-- Claim C5 counterexample: on `/sendmulti a\tb|x|y` the parsed message is
"x" (the segment between the first and second `|`), not the full trimmed
remainder "x|y" the claim requires, and the tab-joined token "a\tb" stays one
target (split is on single spaces, not on all whitespace). -/
theorem claim_c5_sendmulti_parse_counterexample :
    sendmultiParse "/sendmulti a\tb|x|y" = some (["a\tb"], "x") ∧
    ("x" : String) ≠ jsTrim "x|y" ∧
    (["a\tb"] : List String) ≠ ["a", "b"] := by
  decide

/-- Claim C5 witness: a well-formed input parses to its targets and message,
and a pipe-less input is rejected with the format error and no send. -/
theorem claim_c5_sendmulti_parse_amended_witness :
    sendmultiParse "/sendmulti @a @b|Hi there" = some (["@a", "@b"], "Hi there") ∧
    sendmultiParse "/sendmulti @a @b" = none ∧
    botHandle ⟨fun _ => true, "A", none, 1⟩ ⟨[], []⟩ "u" "/sendmulti @a @b" =
      (⟨[], []⟩, [Ev.respond "❌ Format: /sendmulti group1 group2|message"]) :=
  ⟨(claim_c5_sendmulti_parse_amended.2.1 "/sendmulti @a @b|Hi there"
      "/sendmulti @a @b" "Hi there" [] (by decide) (by decide)).trans (by decide),
   claim_c5_sendmulti_parse_amended.1 "/sendmulti @a @b" (by decide),
   claim_c5_sendmulti_parse_amended.2.2.2 ⟨fun _ => true, "A", none, 1⟩ ⟨[], []⟩ "u"
     "/sendmulti @a @b" (by decide) (by decide)
     (claim_c5_sendmulti_parse_amended.1 "/sendmulti @a @b" (by decide))⟩

/-- Claim C6: a `/send` with fewer than 2 space-separated arguments after the
command name produces the fixed usage-redirect response ("❓ Unknown command.
Type /help", the unknown-command branch the source falls into) and makes no
dispatch attempt; with 2 or more arguments it sends the remainder joined by
single spaces to the first argument's target. -/
theorem claim_c6_send_arity (env : BotEnv) (st : BotState) (k text : String)
    (args : List String)
    (hsplit : jsSplitChar ' ' text = "/send" :: args)
    (hslash : jsStartsWith text "/" = true) :
    (args.length < 2 →
      botHandle env st k text = (st, [Ev.respond "❓ Unknown command. Type /help"])) ∧
    (2 ≤ args.length →
      botHandle env st k text =
        (st, [Ev.send (args.headD "") (jsJoin " " (args.drop 1))
                (env.sendOk (args.headD "")),
              Ev.respond ("✓ Message sent to " ++ args.headD "")])) := by
  have hbase : botHandle env st k text =
      botDispatch env st k (jsSplitChar ' ' text)
        (jsToLower ((jsSplitChar ' ' text).headD "")) text := by
    unfold botHandle
    cases hw : wizGet st.wizards k <;> · simp only; rw [if_pos hslash]
  rw [hsplit] at hbase
  have hcmd : jsToLower (("/send" :: args).headD "") = "/send" := by
    simp only [List.headD_cons]
    decide
  rw [hcmd] at hbase
  constructor
  · intro hlen
    rw [hbase]
    unfold botDispatch
    rw [if_neg (fun hc => by
          obtain ⟨-, h3⟩ := hc
          simp only [List.length_cons] at h3
          omega),
        if_neg (by decide), if_neg (by decide), if_neg (by decide), if_neg (by decide),
        if_neg (by decide)]
  · intro hlen
    rw [hbase]
    unfold botDispatch
    rw [if_pos ⟨rfl, by simp only [List.length_cons]; omega⟩]
    simp only [List.drop_succ_cons, List.drop_zero, List.drop_one]

/-- Claim C6 witness: `/send @g` (one argument) yields the usage-redirect
response and no send; `/send @g hello world` sends "hello world" to @g. -/
theorem claim_c6_send_arity_witness :
    jsSplitChar ' ' "/send @g" = "/send" :: ["@g"] ∧
    botHandle ⟨fun _ => true, "A", none, 1⟩ ⟨[], []⟩ "u" "/send @g" =
      (⟨[], []⟩, [Ev.respond "❓ Unknown command. Type /help"]) ∧
    botHandle ⟨fun _ => true, "A", none, 1⟩ ⟨[], []⟩ "u" "/send @g hello world" =
      (⟨[], []⟩, [Ev.send "@g" "hello world" true, Ev.respond "✓ Message sent to @g"]) :=
  ⟨by decide,
   (claim_c6_send_arity ⟨fun _ => true, "A", none, 1⟩ ⟨[], []⟩ "u" "/send @g" ["@g"]
       (by decide) (by decide)).1 (by decide),
   ((claim_c6_send_arity ⟨fun _ => true, "A", none, 1⟩ ⟨[], []⟩ "u" "/send @g hello world"
       ["@g", "hello", "world"] (by decide) (by decide)).2 (by decide)).trans (by decide)⟩

/-! ## Claim theorems: autosend wizard routing -/

theorem wizGet_wizSet (m : List (String × WizState)) (k : String) (v : WizState) :
    wizGet (wizSet m k v) k = some v := by
  simp [wizGet, wizSet, List.find?_cons]

theorem wizGet_wizDel (m : List (String × WizState)) (k : String) :
    wizGet (wizDel m k) k = none := by
  induction m with
  | nil => rfl
  | cons p t ih =>
    by_cases h : p.1 = k
    · simp [wizDel, h] at ih ⊢
      exact ih
    · simp only [wizDel, List.filter_cons] at ih ⊢
      rw [if_pos (by simpa using h)]
      simp only [wizGet, List.find?_cons] at ih ⊢
      rw [show (p.1 == k) = false from by simpa using h]
      exact ih

theorem wizardStep_no_send (w : WizState) (t : String) :
    ∀ e ∈ (autosendWizardStep w t).2.1, isSendEv e = false := by
  unfold autosendWizardStep
  cases w.step <;> simp only
  · split_ifs <;> simp [isSendEv]
  · cases parseIntervalText (some (jsTrim t)) <;> simp [isSendEv]
  · split_ifs with h
    · simp [isSendEv]
    · cases hji : (w.intervalInfo.orElse
          (fun _ => parseIntervalText (some (w.intervalText.getD "1h")))) with
      | none => simp [hji, isSendEv]
      | some info =>
        cases hg : w.groups.getD [] with
        | nil => simp [hji, hg, isSendEv]
        | cons g gs => simp [hji, hg, isSendEv]

/-- Claim C10: while a caller has an active autosend wizard entry, every
non-slash message from that caller is routed to the wizard step — producing no
send and touching no command handler (the registry grows only by the job the
wizard itself may create) — and the caller's entry is removed from the wizard
table exactly when the step marks it done; a caller without an entry has their
non-slash messages ignored entirely (so after completion they are ignored
again). -/
theorem claim_c10_wizard_routing :
    (∀ (env : BotEnv) (st : BotState) (k text : String) (w : WizState),
      wizGet st.wizards k = some w → jsStartsWith text "/" = false →
      botHandle env st k text =
        (⟨st.timers ++ (autosendWizardStep w text).2.2.toList,
          if (autosendWizardStep w text).1.done then wizDel st.wizards k
          else wizSet st.wizards k (autosendWizardStep w text).1⟩,
         (autosendWizardStep w text).2.1) ∧
      (∀ e ∈ (autosendWizardStep w text).2.1, isSendEv e = false) ∧
      (wizGet (botHandle env st k text).1.wizards k =
        if (autosendWizardStep w text).1.done then none
        else some (autosendWizardStep w text).1)) ∧
    (∀ (env : BotEnv) (st : BotState) (k text : String),
      wizGet st.wizards k = none → jsStartsWith text "/" = false →
      botHandle env st k text = (st, [])) := by
  constructor
  · intro env st k text w hw hslash
    have hb : botHandle env st k text =
        (⟨st.timers ++ (autosendWizardStep w text).2.2.toList,
          if (autosendWizardStep w text).1.done then wizDel st.wizards k
          else wizSet st.wizards k (autosendWizardStep w text).1⟩,
         (autosendWizardStep w text).2.1) := by
      unfold botHandle
      rw [hw]
      simp only
      rw [if_neg (by simp [hslash])]
    refine ⟨hb, wizardStep_no_send w text, ?_⟩
    rw [hb]
    by_cases hd : (autosendWizardStep w text).1.done
    · simp only [hd, if_true]
      exact wizGet_wizDel st.wizards k
    · simp only [hd, if_false]
      exact wizGet_wizSet st.wizards k _
  · intro env st k text hw hslash
    unfold botHandle
    rw [hw]
    simp only
    rw [if_neg (by simp [hslash])]

/-- Claim C10 witness: a caller mid-wizard (groups step) sending "@a @b" is
routed to the wizard (entry kept, no send); a caller with no entry sending
"hello" is ignored. -/
theorem claim_c10_wizard_routing_witness :
    botHandle ⟨fun _ => true, "A", none, 1⟩
        ⟨[], [("u", ⟨WizStep.stepGroups, none, none, none, false⟩)]⟩ "u" "@a @b" =
      (⟨[], [("u", ⟨WizStep.stepInterval, some ["@a", "@b"], none, none, false⟩)]⟩,
       [Ev.respond "✅ Groups set: @a, @b\n\nStep 2: Send interval (e.g. 30s, 5m, 4h)."]) ∧
    botHandle ⟨fun _ => true, "A", none, 1⟩ ⟨[], []⟩ "u" "hello" = (⟨[], []⟩, []) :=
  ⟨((claim_c10_wizard_routing.1 ⟨fun _ => true, "A", none, 1⟩
      ⟨[], [("u", ⟨WizStep.stepGroups, none, none, none, false⟩)]⟩ "u" "@a @b"
      ⟨WizStep.stepGroups, none, none, none, false⟩ (by decide) (by decide)).1).trans
      (by decide),
   claim_c10_wizard_routing.2 ⟨fun _ => true, "A", none, 1⟩ ⟨[], []⟩ "u" "hello"
     (by decide) (by decide)⟩

/-! ## Claim theorems: /has listing chunking -/

theorem jsLen_append (a b : String) : jsLen (a ++ b) = jsLen a + jsLen b := by
  simp [jsLen, String.data_append]

theorem sjoin_append_single (l : List String) (x : String) :
    String.join (l ++ [x]) = String.join l ++ x := by
  simp [String.join, List.foldl_append]

theorem join_singleton (x : String) : String.join [x] = x := by
  simp [String.join]

theorem sfoldl_append_init (l : List String) :
    ∀ init : String, l.foldl (fun a b => a ++ b) init = init ++ String.join l := by
  induction l with
  | nil => intro init; simp [String.join]
  | cons b t ih =>
    intro init
    have hj : String.join (b :: t) = b ++ String.join t := by
      show List.foldl (fun a c => a ++ c) ("" ++ b) t = _
      rw [ih ("" ++ b), String.empty_append]
    simp only [List.foldl_cons]
    rw [ih (init ++ b), hj, String.append_assoc]

theorem join_cons (b : String) (t : List String) :
    String.join (b :: t) = b ++ String.join t := by
  show List.foldl (fun a c => a ++ c) ("" ++ b) t = _
  rw [sfoldl_append_init t ("" ++ b), String.empty_append]

theorem append_ne_empty_right (a b : String) (h : b ≠ "") : a ++ b ≠ "" := by
  intro hc
  apply h
  have hd := congrArg String.data hc
  rw [String.data_append] at hd
  have hb : b.data = [] := (List.append_eq_nil.mp hd).2
  cases b with
  | mk d => cases hb; rfl

theorem chunkAccum_push (chunks : List String) (cur l : String)
    (h : 4000 < jsLen (cur ++ l)) :
    chunkAccum (chunks, cur) l = (chunks ++ [cur], l) := by
  unfold chunkAccum
  rw [if_pos h]

theorem chunkAccum_keep (chunks : List String) (cur l : String)
    (h : ¬ 4000 < jsLen (cur ++ l)) :
    chunkAccum (chunks, cur) l = (chunks, cur ++ l) := by
  unfold chunkAccum
  rw [if_neg h]

theorem chunkSegAccum_push (segs : List (List String)) (curSeg : List String) (l : String)
    (h : 4000 < jsLen (String.join curSeg ++ l)) :
    chunkSegAccum (segs, curSeg) l = (segs ++ [curSeg], [l]) := by
  unfold chunkSegAccum
  rw [if_pos h]

theorem chunkSegAccum_keep (segs : List (List String)) (curSeg : List String) (l : String)
    (h : ¬ 4000 < jsLen (String.join curSeg ++ l)) :
    chunkSegAccum (segs, curSeg) l = (segs, curSeg ++ [l]) := by
  unfold chunkSegAccum
  rw [if_neg h]

theorem chunk_corr (lines : List String) :
    ∀ (segs : List (List String)) (curSeg : List String) (chunks : List String) (cur : String),
      chunks = segs.map String.join → cur = String.join curSeg →
      lines.foldl chunkAccum (chunks, cur) =
        ((lines.foldl chunkSegAccum (segs, curSeg)).1.map String.join,
         String.join (lines.foldl chunkSegAccum (segs, curSeg)).2) := by
  induction lines with
  | nil => rintro segs curSeg _ _ rfl rfl; rfl
  | cons l t ih =>
    rintro segs curSeg _ _ rfl rfl
    simp only [List.foldl_cons]
    by_cases h : 4000 < jsLen (String.join curSeg ++ l)
    · rw [chunkAccum_push _ _ _ h, chunkSegAccum_push _ _ _ h]
      exact ih (segs ++ [curSeg]) [l] _ _ (by simp) (join_singleton l).symm
    · rw [chunkAccum_keep _ _ _ h, chunkSegAccum_keep _ _ _ h]
      exact ih segs (curSeg ++ [l]) _ _ rfl (sjoin_append_single curSeg l).symm

theorem buildChunks_eq_segs (header : String) (lines : List String) :
    buildChunks header lines = (buildSegs header lines).map String.join := by
  unfold buildChunks buildSegs
  have hc := chunk_corr lines [] [header] [] header (by simp) (join_singleton header).symm
  simp only at hc ⊢
  rw [hc]
  by_cases h : String.join (lines.foldl chunkSegAccum ([], [header])).2 ≠ ""
  · rw [if_pos h, if_pos h]
    simp
  · rw [if_neg h, if_neg h]

theorem chunkAccum_concat (lines : List String) :
    ∀ (chunks : List String) (cur : String),
      String.join (lines.foldl chunkAccum (chunks, cur)).1 ++
        (lines.foldl chunkAccum (chunks, cur)).2
      = String.join chunks ++ cur ++ String.join lines := by
  induction lines with
  | nil =>
    intro chunks cur
    show String.join chunks ++ cur = _
    simp [String.join]
  | cons l t ih =>
    intro chunks cur
    simp only [List.foldl_cons]
    by_cases h : 4000 < jsLen (cur ++ l)
    · rw [chunkAccum_push _ _ _ h, ih, sjoin_append_single, join_cons]
      simp [String.append_assoc]
    · rw [chunkAccum_keep _ _ _ h, ih, join_cons]
      simp [String.append_assoc]

theorem chunkAccum_le (lines : List String) :
    ∀ (chunks : List String) (cur : String),
      (∀ l ∈ lines, jsLen l ≤ 4000) → (∀ c ∈ chunks, jsLen c ≤ 4000) → jsLen cur ≤ 4000 →
      (∀ c ∈ (lines.foldl chunkAccum (chunks, cur)).1, jsLen c ≤ 4000) ∧
      jsLen (lines.foldl chunkAccum (chunks, cur)).2 ≤ 4000 := by
  induction lines with
  | nil => intro chunks cur _ hc hcur; exact ⟨hc, hcur⟩
  | cons l t ih =>
    intro chunks cur hl hc hcur
    have hlt : ∀ x ∈ t, jsLen x ≤ 4000 := fun x hx => hl x (by simp [hx])
    have hll : jsLen l ≤ 4000 := hl l (by simp)
    simp only [List.foldl_cons]
    by_cases h : 4000 < jsLen (cur ++ l)
    · rw [chunkAccum_push _ _ _ h]
      refine ih (chunks ++ [cur]) l hlt ?_ hll
      intro c hcmem
      rcases List.mem_append.mp hcmem with h1 | h1
      · exact hc c h1
      · simp at h1; subst h1; exact hcur
    · rw [chunkAccum_keep _ _ _ h]
      exact ih chunks (cur ++ l) hlt hc (le_of_not_lt h)

theorem chunkSegAccum_flat (lines : List String) :
    ∀ (segs : List (List String)) (curSeg : List String),
      (lines.foldl chunkSegAccum (segs, curSeg)).1.flatten ++
        (lines.foldl chunkSegAccum (segs, curSeg)).2
      = segs.flatten ++ curSeg ++ lines := by
  induction lines with
  | nil => intro segs curSeg; simp
  | cons l t ih =>
    intro segs curSeg
    simp only [List.foldl_cons]
    by_cases h : 4000 < jsLen (String.join curSeg ++ l)
    · rw [chunkSegAccum_push _ _ _ h, ih]
      simp
    · rw [chunkSegAccum_keep _ _ _ h, ih]
      simp

theorem chunkSegAccum_ne (lines : List String) :
    ∀ (segs : List (List String)) (curSeg : List String),
      (∀ l ∈ lines, l ≠ "") → String.join curSeg ≠ "" →
      String.join (lines.foldl chunkSegAccum (segs, curSeg)).2 ≠ "" := by
  induction lines with
  | nil => intro segs curSeg _ hcur; exact hcur
  | cons l t ih =>
    intro segs curSeg hl hcur
    have hlne : l ≠ "" := hl l (by simp)
    have hlt : ∀ x ∈ t, x ≠ "" := fun x hx => hl x (by simp [hx])
    simp only [List.foldl_cons]
    by_cases h : 4000 < jsLen (String.join curSeg ++ l)
    · rw [chunkSegAccum_push _ _ _ h]
      exact ih _ _ hlt (by rw [join_singleton]; exact hlne)
    · rw [chunkSegAccum_keep _ _ _ h]
      exact ih _ _ hlt (by rw [sjoin_append_single]; exact append_ne_empty_right _ _ hlne)

theorem buildSegs_flat (header : String) (lines : List String)
    (hh : header ≠ "") (hl : ∀ l ∈ lines, l ≠ "") :
    (buildSegs header lines).flatten = header :: lines := by
  unfold buildSegs
  have hne := chunkSegAccum_ne lines [] [header] hl (by rw [join_singleton]; exact hh)
  rw [if_pos hne, List.flatten_append]
  have hfl := chunkSegAccum_flat lines [] [header]
  simpa using hfl

theorem buildChunks_le (header : String) (lines : List String)
    (hh : jsLen header ≤ 4000) (hl : ∀ l ∈ lines, jsLen l ≤ 4000) :
    ∀ c ∈ buildChunks header lines, jsLen c ≤ 4000 := by
  unfold buildChunks
  have h := chunkAccum_le lines [] header hl (by simp) hh
  intro c hc
  by_cases hcond : (lines.foldl chunkAccum ([], header)).2 ≠ ""
  · rw [if_pos hcond] at hc
    rcases List.mem_append.mp hc with h1 | h1
    · exact h.1 c h1
    · simp at h1; subst h1; exact h.2
  · rw [if_neg hcond] at hc
    exact h.1 c hc

theorem buildChunks_concat (header : String) (lines : List String) :
    String.join (buildChunks header lines) = header ++ String.join lines := by
  unfold buildChunks
  have h := chunkAccum_concat lines [] header
  by_cases hcond : (lines.foldl chunkAccum ([], header)).2 ≠ ""
  · rw [if_pos hcond, sjoin_append_single, h]
    simp [String.join]
  · rw [if_neg hcond]
    rw [not_not] at hcond
    rw [hcond, String.append_empty] at h
    rw [h]
    simp [String.join]

theorem buildChunks_two (header : String) (lines : List String)
    (hh : jsLen header ≤ 4000) (hl : ∀ l ∈ lines, jsLen l ≤ 4000)
    (hbig : 4096 < jsLen (header ++ String.join lines)) :
    2 ≤ (buildChunks header lines).length := by
  rcases hres : buildChunks header lines with _ | ⟨c, _ | ⟨c2, t⟩⟩
  · exfalso
    have hcc := buildChunks_concat header lines
    rw [hres] at hcc
    rw [← hcc] at hbig
    simp [String.join, jsLen] at hbig
  · exfalso
    have hcc := buildChunks_concat header lines
    rw [hres, join_singleton] at hcc
    have hle := buildChunks_le header lines hh hl c (by rw [hres]; simp)
    rw [← hcc] at hbig
    omega
  · simp

theorem buildChunks_single_oversized (header line : String)
    (h1 : 4000 < jsLen (header ++ line)) (h2 : line ≠ "") :
    buildChunks header [line] = [header, line] := by
  unfold buildChunks
  simp only [List.foldl_cons, List.foldl_nil]
  rw [chunkAccum_push _ _ _ h1]
  simp only
  rw [if_pos h2]
  rfl

/-- Claim C8 (amended): provided every formatted item line fits within the
4000-character accumulation limit (and the header and items are non-empty),
the `/has` chunker produces chunks each of length at most 4000 — strictly
under the 4096 budget — whose concatenation is exactly the original listing
(item order preserved), each chunk being a concatenation of consecutive whole
items (no item ever split); a listing longer than 4096 yields at least two
chunks.  A single item beyond the limit becomes a chunk of its own, which can
reach or exceed the budget (see the counterexample). -/
theorem claim_c8_has_chunking_amended (header : String) (lines : List String)
    (hh1 : header ≠ "") (hh2 : jsLen header ≤ 4000)
    (hl : ∀ l ∈ lines, l ≠ "" ∧ jsLen l ≤ 4000) :
    (∀ c ∈ buildChunks header lines, jsLen c ≤ 4000) ∧
    String.join (buildChunks header lines) = header ++ String.join lines ∧
    buildChunks header lines = (buildSegs header lines).map String.join ∧
    (buildSegs header lines).flatten = header :: lines ∧
    (4096 < jsLen (header ++ String.join lines) → 2 ≤ (buildChunks header lines).length) ∧
    (∀ gs : List (String × String),
      hasChunks gs = buildChunks (hasHeader gs.length) (hasLinesOf gs)) ∧
    (∀ gs : List (String × String),
      hasListing gs = hasHeader gs.length ++ String.join (hasLinesOf gs)) :=
  ⟨buildChunks_le header lines hh2 (fun l hl' => (hl l hl').2),
   buildChunks_concat header lines,
   buildChunks_eq_segs header lines,
   buildSegs_flat header lines hh1 (fun l hl' => (hl l hl').1),
   buildChunks_two header lines hh2 (fun l hl' => (hl l hl').2),
   fun _ => rfl,
   fun gs => sfoldl_append_init (hasLinesOf gs) (hasHeader gs.length)⟩

/-- Claim C8 counterexample: a listing with one 4100-character title exceeds
the 4096 budget and is chunked, but the item's chunk is 4110 characters —
not strictly under the budget as the claim requires. -/
theorem claim_c8_has_chunking_counterexample :
    jsLen (hasLine 0 (String.mk (List.replicate 4100 'a'), "@u")) = 4110 ∧
    4096 < jsLen (hasListing [(String.mk (List.replicate 4100 'a'), "@u")]) ∧
    hasChunks [(String.mk (List.replicate 4100 'a'), "@u")] =
      [hasHeader 1, hasLine 0 (String.mk (List.replicate 4100 'a'), "@u")] ∧
    ¬ jsLen (hasLine 0 (String.mk (List.replicate 4100 'a'), "@u")) < 4096 := by
  have hbig : jsLen (String.mk (List.replicate 4100 'a')) = 4100 := by
    show ((List.replicate 4100 'a').map (fun c => if c.toNat < 65536 then (1 : Nat) else 2)).sum
      = 4100
    rw [List.map_replicate, List.sum_replicate]
    rw [show (if ('a').toNat < 65536 then (1 : Nat) else 2) = 1 from by decide]
    simp
  have hline : jsLen (hasLine 0 (String.mk (List.replicate 4100 'a'), "@u")) = 4110 := by
    show jsLen (toString (0 + 1) ++ ". " ++ String.mk (List.replicate 4100 'a') ++
      "\n   " ++ "@u" ++ "\n") = 4110
    simp only [jsLen_append, hbig]
    rw [show jsLen (toString (0 + 1)) = 1 from by decide,
        show jsLen ". " = 2 from by decide,
        show jsLen "\n   " = 4 from by decide,
        show jsLen "@u" = 2 from by decide,
        show jsLen "\n" = 1 from by decide]
  have hhead : jsLen (hasHeader 1) = 36 := by decide
  have hlist : hasListing [(String.mk (List.replicate 4100 'a'), "@u")] =
      hasHeader 1 ++ hasLine 0 (String.mk (List.replicate 4100 'a'), "@u") := rfl
  have hne : hasLine 0 (String.mk (List.replicate 4100 'a'), "@u") ≠ "" := by
    intro hc
    rw [hc] at hline
    simp [jsLen] at hline
  refine ⟨hline, ?_, ?_, ?_⟩
  · rw [hlist, jsLen_append, hhead, hline]
    norm_num
  · show buildChunks (hasHeader 1)
      [hasLine 0 (String.mk (List.replicate 4100 'a'), "@u")] = _
    exact buildChunks_single_oversized _ _
      (by rw [jsLen_append, hhead, hline]; norm_num) hne
  · rw [hline]
    norm_num

/-- Claim C8 witness at a small concrete listing. -/
theorem claim_c8_has_chunking_amended_witness :
    (∀ c ∈ buildChunks "H:" ["a\n", "b\n"], jsLen c ≤ 4000) ∧
    String.join (buildChunks "H:" ["a\n", "b\n"]) = "H:" ++ String.join ["a\n", "b\n"] ∧
    (buildSegs "H:" ["a\n", "b\n"]).flatten = "H:" :: ["a\n", "b\n"] :=
  ⟨(claim_c8_has_chunking_amended "H:" ["a\n", "b\n"] (by decide) (by decide) (by decide)).1,
   (claim_c8_has_chunking_amended "H:" ["a\n", "b\n"] (by decide) (by decide) (by decide)).2.1,
   (claim_c8_has_chunking_amended "H:" ["a\n", "b\n"] (by decide) (by decide)
      (by decide)).2.2.2.1⟩

/-! ## Claim theorems: recurring jobs -/

theorem schedRun_go (ops : List SchedOp) :
    ∀ (s : SchedState) (acc : List SchedEv),
      ops.foldl (fun a op => ((schedStep a.1 op).1, a.2 ++ (schedStep a.1 op).2)) (s, acc)
        = ((schedRun s ops).1, acc ++ (schedRun s ops).2) := by
  induction ops with
  | nil =>
    intro s acc
    simp [schedRun]
  | cons op t ih =>
    intro s acc
    simp only [List.foldl_cons]
    rw [ih]
    have hr : schedRun s (op :: t) =
        ((schedRun (schedStep s op).1 t).1,
         (schedStep s op).2 ++ (schedRun (schedStep s op).1 t).2) := by
      unfold schedRun
      simp only [List.foldl_cons, List.nil_append]
      exact ih (schedStep s op).1 (schedStep s op).2
    rw [hr, List.append_assoc]

theorem schedRun_cons (s : SchedState) (op : SchedOp) (t : List SchedOp) :
    schedRun s (op :: t) =
      ((schedRun (schedStep s op).1 t).1,
       (schedStep s op).2 ++ (schedRun (schedStep s op).1 t).2) := by
  unfold schedRun
  simp only [List.foldl_cons, List.nil_append]
  exact schedRun_go t (schedStep s op).1 (schedStep s op).2

theorem schedRun_append (s : SchedState) (l1 l2 : List SchedOp) :
    schedRun s (l1 ++ l2) =
      ((schedRun (schedRun s l1).1 l2).1,
       (schedRun s l1).2 ++ (schedRun (schedRun s l1).1 l2).2) := by
  unfold schedRun
  rw [List.foldl_append]
  have h1 : l1.foldl (fun a op => ((schedStep a.1 op).1, a.2 ++ (schedStep a.1 op).2)) (s, [])
      = ((schedRun s l1).1, (schedRun s l1).2) := rfl
  rw [h1]
  exact schedRun_go l2 (schedRun s l1).1 (schedRun s l1).2

theorem fireCount_zero (now : ℚ) (e : TimerEntry) (h : now < e.nextFire) :
    fireCount now e = 0 := by
  unfold fireCount
  split_ifs with h1 h2
  · rfl
  · exact absurd h2 (not_le.mpr h)
  · rfl

theorem advanceTimer_quiet (now : ℚ) (e : TimerEntry) (h : now < e.nextFire) :
    advanceTimer now e = ([], e) := by
  unfold advanceTimer
  rw [fireCount_zero now e h]
  simp

theorem advances_no_fire (ds : List ℚ) :
    ∀ (now : ℚ) (e : TimerEntry),
      (∀ δ ∈ ds, 0 ≤ δ) → now + ds.sum < e.nextFire →
      schedRun ⟨now, [e]⟩ (ds.map SchedOp.advance) = (⟨now + ds.sum, [e]⟩, []) := by
  induction ds with
  | nil =>
    intro now e _ _
    simp [schedRun]
  | cons δ t ih =>
    intro now e hd hsum
    rw [List.sum_cons] at hsum
    have hts : ∀ x ∈ t, 0 ≤ x := fun x hx => hd x (by simp [hx])
    have htsum : 0 ≤ t.sum := List.sum_nonneg hts
    simp only [List.map_cons]
    rw [schedRun_cons]
    have hstep : schedStep ⟨now, [e]⟩ (SchedOp.advance δ) = (⟨now + δ, [e]⟩, []) := by
      unfold schedStep
      simp only [List.map_cons, List.map_nil]
      rw [advanceTimer_quiet (now + δ) e (by linarith)]
      simp
    rw [hstep]
    rw [ih (now + δ) e hts (by linarith)]
    simp [List.sum_cons, add_assoc]

theorem advances_empty (ds : List ℚ) :
    ∀ s : SchedState, s.timers = [] →
      (schedRun s (ds.map SchedOp.advance)).1.timers = [] ∧
      (schedRun s (ds.map SchedOp.advance)).2 = [] := by
  induction ds with
  | nil => intro s h; exact ⟨h, rfl⟩
  | cons δ t ih =>
    intro s h
    simp only [List.map_cons]
    rw [schedRun_cons]
    have hstep : schedStep s (SchedOp.advance δ) = (⟨s.now + δ, []⟩, []) := by
      unfold schedStep
      rw [h]
      simp
    rw [hstep]
    have hr := ih ⟨s.now + δ, []⟩ rfl
    simp [hr.1, hr.2]

/-- Claim C3: creating a recurring job sends nothing at creation time (the
create step emits no events; the job's first tick is due only one full
interval after creation), and a `/stoptimers` issued before time has advanced
by a full interval stops and discards every registered timer (the registry is
emptied) so that no broadcast ever fires for that job, however much time
passes afterwards. -/
theorem claim_c3_recurring_job_lifecycle (t0 : ℚ) (gs : List String)
    (info : IntervalInfo) (m : String) (ds1 ds2 : List ℚ)
    (hd : ∀ δ ∈ ds1, 0 ≤ δ) (hsum : ds1.sum < info.intervalMs) :
    (∀ s : SchedState, (schedStep s (SchedOp.create gs info m)).2 = []) ∧
    (∀ s : SchedState, (schedStep s SchedOp.stopTimers).1.timers = [] ∧
      (schedStep s SchedOp.stopTimers).2 = [SchedEv.timersCleared s.timers.length]) ∧
    (∀ e ∈ (schedRun ⟨t0, []⟩ (SchedOp.create gs info m ::
        (ds1.map SchedOp.advance ++ SchedOp.stopTimers :: ds2.map SchedOp.advance))).2,
      isTickEv e = false) ∧
    (schedRun ⟨t0, []⟩ (SchedOp.create gs info m ::
        (ds1.map SchedOp.advance ++ SchedOp.stopTimers :: ds2.map SchedOp.advance))).1.timers
      = [] := by
  have hcreate : schedStep ⟨t0, []⟩ (SchedOp.create gs info m) =
      (⟨t0, [⟨createAutoSendTimer gs info m, t0 + info.intervalMs⟩]⟩, []) := rfl
  have hadv := advances_no_fire ds1 t0
    ⟨createAutoSendTimer gs info m, t0 + info.intervalMs⟩ hd
    (by simp only; linarith)
  have hstop : schedStep ⟨t0 + ds1.sum,
      [⟨createAutoSendTimer gs info m, t0 + info.intervalMs⟩]⟩ SchedOp.stopTimers =
      (⟨t0 + ds1.sum, []⟩, [SchedEv.timersCleared 1]) := rfl
  obtain ⟨hemp1, hemp2⟩ := advances_empty ds2 ⟨t0 + ds1.sum, []⟩ rfl
  have key : (schedRun ⟨t0, []⟩ (SchedOp.create gs info m ::
      (ds1.map SchedOp.advance ++ SchedOp.stopTimers :: ds2.map SchedOp.advance))).2
        = [SchedEv.timersCleared 1] ∧
      (schedRun ⟨t0, []⟩ (SchedOp.create gs info m ::
      (ds1.map SchedOp.advance ++ SchedOp.stopTimers :: ds2.map SchedOp.advance))).1.timers
        = [] := by
    rw [schedRun_cons, hcreate]
    simp only
    rw [schedRun_append, hadv]
    simp only
    rw [schedRun_cons, hstop]
    simp only
    rw [hemp2]
    exact ⟨by simp, by simpa using hemp1⟩
  refine ⟨fun s => rfl, fun s => ⟨rfl, rfl⟩, ?_, key.2⟩
  rw [key.1]
  intro e he
  rw [List.mem_singleton] at he
  subst he
  rfl

/-- Claim C3 witness: a `10m` job created at time 0, with one second of time
passing, then `/stoptimers`, then a long quiet interval — no broadcast ever
fires and the registry ends empty. -/
theorem claim_c3_recurring_job_lifecycle_witness :
    (∀ e ∈ (schedRun ⟨0, []⟩ (SchedOp.create ["@a", "@b"] ⟨10, 'm', 600000, "10m"⟩ "Ping" ::
        ([(1000 : ℚ)].map SchedOp.advance ++ SchedOp.stopTimers ::
          [(100000000 : ℚ)].map SchedOp.advance))).2, isTickEv e = false) ∧
    (schedRun ⟨0, []⟩ (SchedOp.create ["@a", "@b"] ⟨10, 'm', 600000, "10m"⟩ "Ping" ::
        ([(1000 : ℚ)].map SchedOp.advance ++ SchedOp.stopTimers ::
          [(100000000 : ℚ)].map SchedOp.advance))).1.timers = [] :=
  ⟨(claim_c3_recurring_job_lifecycle 0 ["@a", "@b"] ⟨10, 'm', 600000, "10m"⟩ "Ping"
      [1000] [100000000]
      (by intro δ h; rw [List.mem_singleton] at h; subst h; norm_num)
      (by rw [List.sum_cons, List.sum_nil]; norm_num)).2.2.1,
   (claim_c3_recurring_job_lifecycle 0 ["@a", "@b"] ⟨10, 'm', 600000, "10m"⟩ "Ping"
      [1000] [100000000]
      (by intro δ h; rw [List.mem_singleton] at h; subst h; norm_num)
      (by rw [List.sum_cons, List.sum_nil]; norm_num)).2.2.2⟩
